import Mathlib

/-!
Shallow embedding of the vipnode pool code (src/pool/...), for checking the
natural-language specification against the source.

Conventions:
- Go `time.Time` is modelled as `Int` (seconds); `t1.After t2` is `t1 > t2`,
  `t1.Before t2` is `t1 < t2`, `now.Sub lastSeen .Seconds()` is `now - lastSeen`.
- Go maps are modelled as association lists with `mapGet?` / `mapSet`;
  a read of a missing key yields the zero value, mirrored with `getD`.
- A Go `nil` map is modelled as `Option` `none`: reading from it yields the
  zero value and length 0, while writing to it is a runtime panic, modelled
  by the `GoRes.fault` result.
- `math/big.Int` is modelled as `Int`; `big.Int.Div` is Euclidean division,
  which is `Int.ediv`.
-/

namespace Vipnode

abbrev NodeID := String
abbrev Account := String

/-- Association-list read, modelling Go's `v, ok := m[k]` with `ok` as `Option`. -/
def mapGet? {α : Type} : List (String × α) → String → Option α
  | [], _ => none
  | (k₂, v) :: rest, k => if k = k₂ then some v else mapGet? rest k

/-- Association-list write, modelling Go's `m[k] = v`. -/
def mapSet {α : Type} : List (String × α) → String → α → List (String × α)
  | [], k, v => [(k, v)]
  | (k₂, v₂) :: rest, k, v =>
    if k = k₂ then (k, v) :: rest else (k₂, v₂) :: mapSet rest k v

/-- Association-list delete, modelling Go's `delete(m, k)`. -/
def mapDel {α : Type} : List (String × α) → String → List (String × α)
  | [], _ => []
  | (k₂, v₂) :: rest, k =>
    if k = k₂ then mapDel rest k else (k₂, v₂) :: mapDel rest k

/-- `store.Balance` (src/pool/store: Account, Credit, NextWithdraw). -/
structure Balance where
  account : Account
  credit : Int
  nextWithdraw : Int
deriving Repr, DecidableEq

/-- The zero value of `store.Balance`, what a Go map read returns for a missing key. -/
def Balance.zero : Balance := { account := "", credit := 0, nextWithdraw := 0 }

/-- `store.Node` (src/pool/store). `peers` is the unexported Go map
`map[NodeID]time.Time`; `none` is a Go nil map (never initialized by `SetNode`). -/
structure Node where
  id : NodeID
  uri : String
  lastSeen : Int
  kind : String
  isHost : Bool
  balance : Option Balance
  peers : Option (List (NodeID × Int))
deriving Repr, DecidableEq

/-- Error values of src/pool/store/errors.go plus badger's `ErrKeyNotFound`. -/
inductive StoreErr where
  | invalidNonce
  | unregisteredNode
  | malformedNode
  | keyNotFound
deriving Repr, DecidableEq

/-- Outcome of a Go call: normal return, error return, or runtime panic
(e.g. a write to a nil map, or a method call on a nil pointer). -/
inductive GoRes (ε α : Type) where
  | ok (val : α)
  | err (e : ε)
  | fault
deriving Repr, DecidableEq

/-- Modelled from the spec: the keepalive interval constant is declared in
repository code outside src/ (memory.go refers to `KeepaliveInterval`); the
spec only says hosts/peers age out by recency ("recent enough"). The concrete
value is arbitrary; no claim depends on it. -/
def KeepaliveInterval : Int := 60

/-- Modelled from the spec: `store.ExpireInterval`, referred to by
src/pool/store/badger/badger.go but declared outside src/. Arbitrary value;
no claim depends on it. -/
def ExpireInterval : Int := 120

/-- `memoryStore` (src/pool/store/memory.go). The mutex is concurrency-only
and not modelled; each call maps a store state to a result and a new state. -/
structure MemoryStore where
  balances : List (Account × Balance)
  nodes : List (NodeID × Node)
  nonces : List (NodeID × Int)
deriving Repr, DecidableEq

namespace memoryStore

/-- `MemoryStore()` constructor: empty maps. -/
def empty : MemoryStore := { balances := [], nodes := [], nonces := [] }

/-- `memoryStore.CheckAndSaveNonce` (memory.go:34-43): reject unless the nonce
is strictly greater than the stored one (a missing entry reads as 0, the Go
zero value), else record it. -/
def CheckAndSaveNonce (s : MemoryStore) (nodeID : NodeID) (nonce : Int) :
    Except StoreErr MemoryStore :=
  if (mapGet? s.nonces nodeID).getD 0 ≥ nonce then
    .error .invalidNonce
  else
    .ok { s with nonces := mapSet s.nonces nodeID nonce }

/-- `memoryStore.GetBalance` (memory.go:46-50): map read, zero value if missing. -/
def GetBalance (s : MemoryStore) (account : Account) : Balance :=
  (mapGet? s.balances account).getD Balance.zero

/-- `memoryStore.AddBalance` (memory.go:53-63). Source:
`b, ok := s.balances[account]; b.Credit += credit; if !ok { s.balances[account] = b }`
— the incremented copy is written back only when the entry was missing. -/
def AddBalance (s : MemoryStore) (account : Account) (credit : Int) :
    Except StoreErr MemoryStore :=
  let r := mapGet? s.balances account
  let b := r.getD Balance.zero
  let b₂ := { b with credit := b.credit + credit }
  match r with
  | some _ => .ok s
  | none => .ok { s with balances := mapSet s.balances account b₂ }

/-- `memoryStore.SetNode` (memory.go:66-78): reject an empty ID; if an account
is given and the node has no balance pointer, point it at a copy of that
account's balance; store the node. -/
def SetNode (s : MemoryStore) (n : Node) (a : Account) : Except StoreErr MemoryStore :=
  if n.id = "" then .error .malformedNode
  else
    let n₂ := if a ≠ "" ∧ n.balance = none
      then { n with balance := some ((mapGet? s.balances a).getD Balance.zero) }
      else n
    .ok { s with nodes := mapSet s.nodes n₂.id n₂ }

/-- `memoryStore.RemoveNode` (memory.go:81-86). -/
def RemoveNode (s : MemoryStore) (nodeID : NodeID) : MemoryStore :=
  { s with nodes := mapDel s.nodes nodeID }

end memoryStore

/-- The peer-refresh loop shared by both `UpdateNodePeers` implementations
(memory.go:133-139, badger.go:210-217): for each listed peer that the store
already knows, write `now` into the peers map and count the write. A write to
a Go nil map (`none`) is a runtime panic, hence `fault`. Unknown peers are
skipped. Returns the final map and the count `numUpdated`. -/
def refreshPeers (known : String → Bool) (now : Int) :
    List String → Option (List (NodeID × Int)) → Nat →
    GoRes StoreErr (Option (List (NodeID × Int)) × Nat)
  | [], pm, n => .ok (pm, n)
  | p :: rest, pm, n =>
    if known p then
      match pm with
      | none => .fault
      | some m => refreshPeers known now rest (some (mapSet m p now)) (n + 1)
    else refreshPeers known now rest pm n

namespace memoryStore

/-- `memoryStore.UpdateNodePeers` (memory.go:123-157). memory.go:126 reads a
copy of the Node struct out of the map; the assignment `node.LastSeen = now`
(line 131) mutates only that local copy, which is never stored back, while
writes to `node.peers` go through the map header shared with the stored Node.
So of the stored Node only the peers map changes. The range order over the Go
map is arbitrary; the model uses association-list order (the claims below only
depend on the resulting sets). Entries whose timestamp is before the inactive
deadline are skipped by `continue` (kept); the remaining entries are deleted
and, when the peer is a known node, collected into the returned list. -/
def UpdateNodePeers (s : MemoryStore) (nodeID : NodeID) (peers : List String) (now : Int) :
    GoRes StoreErr (List Node × MemoryStore) :=
  match mapGet? s.nodes nodeID with
  | none => .err .unregisteredNode
  | some node =>
    match refreshPeers (fun p => (mapGet? s.nodes p).isSome) now peers node.peers 0 with
    | .fault => .fault
    | .err e => .err e
    | .ok (pm, numUpdated) =>
      let entries := pm.getD []
      if numUpdated = entries.length then
        .ok ([], { s with nodes := mapSet s.nodes nodeID { node with peers := pm } })
      else
        let inactiveDeadline := now - 2 * KeepaliveInterval
        let kept := entries.filter (fun e => decide (e.2 < inactiveDeadline))
        let deleted := entries.filter (fun e => !decide (e.2 < inactiveDeadline))
        let inactive := deleted.filterMap (fun e => mapGet? s.nodes e.1)
        .ok (inactive,
          { s with nodes := mapSet s.nodes nodeID { node with peers := some kept } })

/-- Modelled from the spec: `GetNode`, used by VipnodePool.Update
(src/pool/service.go:68) but declared outside src/ for the memory store.
Loads the stored Node; fails for an unregistered node (matching the badger
implementation in src, badger.go:151-163). -/
def GetNode (s : MemoryStore) (nodeID : NodeID) : Except StoreErr Node :=
  match mapGet? s.nodes nodeID with
  | none => .error .unregisteredNode
  | some node => .ok node

/-- Modelled from the spec: `NodePeers`, used by VipnodePool.Update
(src/pool/service.go:85) but declared outside src/ for the memory store.
Per the spec, yields the node's currently tracked peers ("currently valid
peers"): the Node records of the entries of the node's peers map. -/
def NodePeers (s : MemoryStore) (nodeID : NodeID) : Except StoreErr (List Node) :=
  match mapGet? s.nodes nodeID with
  | none => .error .unregisteredNode
  | some node => .ok ((node.peers.getD []).filterMap (fun e => mapGet? s.nodes e.1))

end memoryStore

/-- `badgerStore` (src/pool/store/badger/badger.go), modelled as three key
families of the underlying key-value store: `vip:nonce:<id>`, `vip:node:<id>`
and `vip:peers:<id>`. A stored (gob-decoded) peers map is non-nil; an absent
`vip:peers` key leaves the local `nodePeers` map nil (`none`). Each call runs
inside one transaction, modelled as a state transition. -/
structure BadgerStore where
  nonces : List (NodeID × Int)
  nodes : List (NodeID × Node)
  peersTbl : List (NodeID × List (NodeID × Int))
deriving Repr, DecidableEq

namespace badgerStore

/-- `badgerStore.CheckAndSaveNonce` (badger.go:63-89). When `txn.Get` reports
`ErrKeyNotFound`, the code enters the branch that calls `item.Value()` on the
nil item — a runtime panic. When the key exists (`err == nil`), both guarded
branches are skipped, so the stored nonce is never compared and the incoming
nonce is saved unconditionally. -/
def CheckAndSaveNonce (s : BadgerStore) (nodeID : NodeID) (nonce : Int) :
    GoRes StoreErr BadgerStore :=
  match mapGet? s.nonces nodeID with
  | none => .fault
  | some _ => .ok { s with nonces := mapSet s.nonces nodeID nonce }

/-- `badgerStore.UpdateNodePeers` (badger.go:189-234). Unlike the memory
variant, the node's `LastSeen` update is written back (badger.go:200-203).
The inactive selection (badger.go:223-230) skips (`continue`, keeps) entries
whose timestamp is before the deadline and deletes and reports the rest. -/
def UpdateNodePeers (s : BadgerStore) (nodeID : NodeID) (peers : List String) (now : Int) :
    GoRes StoreErr (List NodeID × BadgerStore) :=
  match mapGet? s.nodes nodeID with
  | none => .err .keyNotFound
  | some node =>
    let s₁ := { s with nodes := mapSet s.nodes nodeID { node with lastSeen := now } }
    let nodePeers := mapGet? s.peersTbl nodeID
    match refreshPeers (fun p => (mapGet? s₁.nodes p).isSome) now peers nodePeers 0 with
    | .fault => .fault
    | .err e => .err e
    | .ok (pm, numUpdated) =>
      let entries := pm.getD []
      if numUpdated = entries.length then
        .ok ([], { s₁ with peersTbl := mapSet s₁.peersTbl nodeID entries })
      else
        let inactiveDeadline := now - ExpireInterval
        let kept := entries.filter (fun e => decide (e.2 < inactiveDeadline))
        let deleted := entries.filter (fun e => !decide (e.2 < inactiveDeadline))
        .ok (deleted.map (fun e => e.1),
          { s₁ with peersTbl := mapSet s₁.peersTbl nodeID kept })

end badgerStore

/-- Modelled from the spec: the per-node balance table behind the store's
`GetNodeBalance` / `AddNodeBalance` methods used by payPerInterval
(src/pool/balance.go:29,40,43); that store interface revision is not under
src/. Per the spec's storage contract, addBalance adds a credit amount to the
balance and getBalance reads it; a missing entry reads as zero credit. -/
abbrev NodeBalances := List (NodeID × Int)

/-- Modelled from the spec: read a node's credit balance (zero if absent). -/
def getNodeBalance (st : NodeBalances) (id : NodeID) : Int :=
  (mapGet? st id).getD 0

/-- Modelled from the spec: add a credit amount to a node's balance. -/
def addNodeBalance (st : NodeBalances) (id : NodeID) (amt : Int) : NodeBalances :=
  mapSet st id (getNodeBalance st id + amt)

/-- `payPerInterval` (src/pool/balance.go:17-21). `interval` is the duration
in whole seconds, as used at balance.go:36; the balance.go:31 check
`Interval <= 0` is modelled on the same quantity (sub-second durations are
not modelled). `creditPerInterval` is the big.Int field. -/
structure payPerInterval where
  interval : Int
  creditPerInterval : Int
deriving Repr, DecidableEq

/-- `payPerInterval.OnUpdate` (src/pool/balance.go:25-47), returning the call
result together with the balance store after the call. Host updates only read
the balance. Otherwise, after the configuration check, balance.go:39 computes
`new(big.Int).Mul(delta, &b.CreditPerInterval).Div(delta, interval)`: big.Int
methods store into and return their receiver, so the final `Div` call
overwrites the product — the value bound to `credit` is `delta / interval`
(Euclidean division, per big.Int.Div). Each peer's balance gets `credit`
added (the error of that AddNodeBalance call is ignored at balance.go:40),
and the client is debited by the running total. -/
def payPerInterval.OnUpdate (b : payPerInterval) (st : NodeBalances) (node : Node)
    (peers : List Node) (now : Int) : Except String Int × NodeBalances :=
  if node.isHost then
    (.ok (getNodeBalance st node.id), st)
  else if b.interval ≤ 0 ∨ b.creditPerInterval = 0 then
    (.error "payPerInterval: Invalid interval settings", st)
  else
    let delta := now - node.lastSeen
    let credit := Int.ediv delta b.interval
    let r := peers.foldl
      (fun (acc : NodeBalances × Int) p => (addNodeBalance acc.1 p.id credit, acc.2 + credit))
      (st, 0)
    let st₂ := addNodeBalance r.1 node.id (-r.2)
    (.ok (getNodeBalance st₂ node.id), st₂)

/-- Cause carried by `ErrVerifyFailed` (src/pool/balance.go:69): either the
store's invalid-nonce error or a signature failure of `request.Verify`. -/
inductive VerifyCause where
  | invalidNonce
  | badSignature
deriving Repr, DecidableEq

/-- `VipnodePool.verify` (src/pool/service.go:51-60), over the memory store.
The signature primitive `request.Verify` is an external collaborator (not
under src/), abstracted by its boolean outcome `sigOK`. The nonce save at
service.go:52 precedes the signature check at service.go:56, so the store
state after the call is returned even when verification fails. -/
def VipnodePool.verify (s : MemoryStore) (sigOK : Bool) (nodeID : NodeID) (nonce : Int) :
    Except VerifyCause Unit × MemoryStore :=
  match memoryStore.CheckAndSaveNonce s nodeID nonce with
  | .error _ => (.error .invalidNonce, s)
  | .ok s₂ => if sigOK then (.ok (), s₂) else (.error .badSignature, s₂)

/-- Mutable state of a `VipnodePool` (src/pool/service.go:42-49): the store,
the mutex-guarded `remoteHosts` map (a live Service per connected host,
modelled by an opaque service identifier), and the `skipWhitelist` flag. -/
structure PoolState where
  store : MemoryStore
  remoteHosts : List (NodeID × Nat)
  skipWhitelist : Bool
deriving Repr, DecidableEq

/-- Drop the first occurrence of `sep` as a leading pattern: `some rest` when
`l = sep ++ rest`. Helper for the model of Go's net/url parsing. -/
def dropPat : List Char → List Char → Option (List Char)
  | [], l => some l
  | _, [] => none
  | a :: as2, b :: bs => if a = b then dropPat as2 bs else none

/-- Split at the first occurrence of `sep`: `some (pre, post)` with
`l = pre ++ sep ++ post`. Helper for the model of Go's net/url parsing. -/
def splitAtPat (sep : List Char) : List Char → Option (List Char × List Char)
  | [] => none
  | c :: rest =>
    match dropPat sep (c :: rest) with
    | some tail => some ([], tail)
    | none =>
      match splitAtPat sep rest with
      | some (pre, post) => some (c :: pre, post)
      | none => none

/-- Model of the external collaborator `url.Parse(nodeURI).User.Username()`
used at src/pool/service.go:116-121 on enode-style URIs: the userinfo is the
part of the authority (between `://` and the next `/`) before the first `@`
(absent `@` means no user, whose Username() is the empty string), and
Username() is the userinfo up to the first `:`. -/
def uriUser (s : String) : String :=
  match splitAtPat [':', '/', '/'] s.data with
  | none => ""
  | some (_, rest) =>
    let authority := rest.takeWhile (fun c => c ≠ '/')
    match splitAtPat ['@'] authority with
    | none => ""
    | some (userinfo, _) => String.mk (userinfo.takeWhile (fun c => c ≠ ':'))

/-- Failures of `VipnodePool.Host` after a successful verify:
the identity-mismatch error of service.go:121-123, a store error from
SetNode, or `jsonrpc2.CtxService` finding no service in the call context. -/
inductive HostErr where
  | identityMismatch
  | storeErr (e : StoreErr)
  | noCtxService
deriving Repr, DecidableEq

/-- `VipnodePool.Host` (src/pool/service.go:110-152) after a successful
verify. `service` is the outcome of `jsonrpc2.CtxService(ctx)` (the Service
the call arrived through; `none` when the context carries none — note that
this failure is only discovered after the node was already stored). On an
identity mismatch the pool state is returned unchanged; otherwise the node is
upserted with `isHost := true`, `lastSeen := now`, the payout account bound,
and the service recorded in `remoteHosts`. -/
def VipnodePool.Host (p : PoolState) (nodeID : NodeID) (kind payout nodeURI : String)
    (service : Option Nat) (now : Int) : Except HostErr Unit × PoolState :=
  if uriUser nodeURI ≠ nodeID then (.error .identityMismatch, p)
  else
    let node : Node :=
      { id := nodeID, uri := nodeURI, lastSeen := now, kind := kind,
        isHost := true, balance := none, peers := none }
    match memoryStore.SetNode p.store node payout with
    | .error e => (.error (.storeErr e), p)
    | .ok store₂ =>
      match service with
      | none => (.error .noCtxService, { p with store := store₂ })
      | some svc =>
        (.ok (), { p with store := store₂, remoteHosts := mapSet p.remoteHosts nodeID svc })

/-- The loop body of `memoryStore.ActiveHosts` (memory.go:90-118): skip
non-hosts, kind mismatches (unless kind is empty) and nodes not seen after
`seenSince`; otherwise take the node, decrement the limit and stop when it
hits zero (a limit ≤ 0 never stops). Go's map range order is arbitrary; the
model iterates in association-list order. -/
def activeHostsLoop (kind : String) (seenSince : Int) :
    List (NodeID × Node) → Int → List Node
  | [], _ => []
  | (_, n) :: rest, limit =>
    if !n.isHost then activeHostsLoop kind seenSince rest limit
    else if kind ≠ "" ∧ n.kind ≠ kind then activeHostsLoop kind seenSince rest limit
    else if ¬ (n.lastSeen > seenSince) then activeHostsLoop kind seenSince rest limit
    else if limit - 1 = 0 then [n]
    else n :: activeHostsLoop kind seenSince rest (limit - 1)

/-- `memoryStore.ActiveHosts` (memory.go:88-118). -/
def memoryStore.ActiveHosts (s : MemoryStore) (kind : String) (limit : Int) (now : Int) :
    List Node :=
  activeHostsLoop kind (now - 2 * KeepaliveInterval) s.nodes limit

/-- One entry of the `errors` slice built by `VipnodePool.Connect`: either the
"missing remote service for candidate host" error (service.go:186) or a
failed `vipnode_whitelist` call (service.go:212-213). -/
inductive ConnCallErr where
  | missingRemote (id : NodeID)
  | callFailed (id : NodeID)
deriving Repr, DecidableEq

/-- Overall failure of `VipnodePool.Connect`: `ErrNoHostNodes` with the
number of nodes tried, `ErrConnectFailed` aggregating the per-host errors, or
a store error from the SetNode upsert. -/
inductive ConnectErr where
  | noHostNodes (numTried : Nat)
  | connectFailed (errs : List ConnCallErr)
  | storeErr (e : StoreErr)
deriving Repr, DecidableEq

/-- The candidates having a live `remoteHosts` entry, with their service
(service.go:179-188, the `remotes` slice). -/
def connectRemotes (p : PoolState) (r : List Node) : List (Node × Nat) :=
  r.filterMap (fun n => (mapGet? p.remoteHosts n.id).map (fun svc => (n, svc)))

/-- The "missing remote service" errors collected in the same loop. -/
def connectMissing (p : PoolState) (r : List Node) : List ConnCallErr :=
  (r.filter (fun n => (mapGet? p.remoteHosts n.id).isNone)).map
    (fun n => .missingRemote n.id)

/-- The hosts whose whitelist call succeeded (the `accepted` slice). -/
def connectAccepted (remotes : List (Node × Nat)) (whitelistOK : Nat → Bool) : List Node :=
  (remotes.filter (fun e => whitelistOK e.2)).map (fun e => e.1)

/-- The whitelist-call failures fed into the `errors` slice. -/
def connectCallErrs (remotes : List (Node × Nat)) (whitelistOK : Nat → Bool) :
    List ConnCallErr :=
  (remotes.filter (fun e => !whitelistOK e.2)).map (fun e => .callFailed e.1.id)

/-- The full `errors` slice of Connect: first the "missing remote service"
entries collected before the fan-out, then the whitelist-call failures. -/
def connectErrors (p : PoolState) (r : List Node) (whitelistOK : Nat → Bool) :
    List ConnCallErr :=
  connectMissing p r ++ connectCallErrs (connectRemotes p r) whitelistOK

/-- `VipnodePool.Connect` (src/pool/service.go:155-245) after a successful
verify. The whitelist fan-out is concurrent in the source; its per-host
outcome is abstracted by `whitelistOK` over the service identifier, and the
arrival order of accepted hosts and errors is modelled by candidate order
(the claims below only depend on the classification and the sets). The
requesting node is upserted with `isHost := false` before the fan-out. -/
def VipnodePool.Connect (p : PoolState) (nodeID : NodeID) (kind : String)
    (whitelistOK : Nat → Bool) (now : Int) :
    Except ConnectErr (List Node) × PoolState :=
  let r := memoryStore.ActiveHosts p.store kind 3 now
  if r.length = 0 then (.error (.noHostNodes 0), p)
  else if p.skipWhitelist then (.ok r, p)
  else
    let remotes := connectRemotes p r
    let node : Node :=
      { id := nodeID, uri := "", lastSeen := now, kind := kind,
        isHost := false, balance := none, peers := none }
    match memoryStore.SetNode p.store node "" with
    | .error e => (.error (.storeErr e), p)
    | .ok store₂ =>
      let p₂ := { p with store := store₂ }
      let accepted := connectAccepted remotes whitelistOK
      let errs := connectErrors p r whitelistOK
      if accepted.length ≥ 1 then (.ok accepted, p₂)
      else if errs.length > 0 then (.error (.connectFailed errs), p₂)
      else (.error (.noHostNodes r.length), p₂)

/-- `pool.UpdateResponse`: the list of now-invalid peer IDs plus the balance
returned by the ledger (declared outside src/; shape per the spec, §4.6:
"attaching the resulting Balance to the response alongside the list of
now-invalid peer IDs"). The balance is its credit amount. -/
structure UpdateResponse where
  invalidPeers : List String
  balance : Int
deriving Repr, DecidableEq

/-- Failure of `VipnodePool.Update`: a store error or a ledger error. -/
inductive UpdateErr where
  | storeErr (e : StoreErr)
  | ledgerErr (msg : String)
deriving Repr, DecidableEq

/-- `VipnodePool.Update` (src/pool/service.go:63-107) after a successful
verify, over the memory store and the payPerInterval ledger: load the node,
snapshot it, reconcile the peer list, read back the remaining peers, run the
ledger on the pre-update snapshot, and answer with the invalid peer IDs and
the balance. -/
def VipnodePool.Update (p : PoolState) (b : payPerInterval) (nb : NodeBalances)
    (nodeID : NodeID) (peers : List String) (now : Int) :
    GoRes UpdateErr (UpdateResponse × PoolState × NodeBalances) :=
  match memoryStore.GetNode p.store nodeID with
  | .error e => .err (.storeErr e)
  | .ok nodeBeforeUpdate =>
    match memoryStore.UpdateNodePeers p.store nodeID peers now with
    | .fault => .fault
    | .err e => .err (.storeErr e)
    | .ok (inactive, store₂) =>
      let invalidPeers := inactive.map (fun n => n.id)
      match memoryStore.NodePeers store₂ nodeID with
      | .error e => .err (.storeErr e)
      | .ok validPeers =>
        match b.OnUpdate nb nodeBeforeUpdate validPeers now with
        | (.error msg, _) => .err (.ledgerErr msg)
        | (.ok balance, nb₂) =>
          .ok ({ invalidPeers := invalidPeers, balance := balance },
               { p with store := store₂ }, nb₂)

/-! Concrete instances evaluated by the theorems below. -/

/-- A geth host node with id "a", last seen at time 0. -/
def nodeHostA : Node :=
  { id := "a", uri := "", lastSeen := 0, kind := "geth", isHost := true,
    balance := none, peers := none }

/-- A geth host node with id "b", last seen at time 0. -/
def nodeHostB : Node :=
  { id := "b", uri := "", lastSeen := 0, kind := "geth", isHost := true,
    balance := none, peers := none }

/-- A client node with id "n", last seen at time 0. -/
def nodeClientN : Node :=
  { id := "n", uri := "", lastSeen := 0, kind := "geth", isHost := false,
    balance := none, peers := none }

/-- The host of the ledger example (spec §8): one connected host. -/
def ledgerHost : Node :=
  { id := "host", uri := "", lastSeen := 0, kind := "geth", isHost := true,
    balance := none, peers := none }

/-- The client of the ledger example (spec §8), last seen at time 0. -/
def ledgerClient : Node :=
  { id := "client", uri := "", lastSeen := 0, kind := "geth", isHost := false,
    balance := none, peers := none }

/-- The ledger configuration of the spec's example: creditPerInterval 1000,
interval 60 seconds. -/
def ledgerCfg : payPerInterval := { interval := 60, creditPerInterval := 1000 }

/-- A badger store where node "n" tracks peers "a" and "b", both last seen at
time 0; "a" and "b" are registered host nodes. -/
def c3Store : BadgerStore :=
  { nonces := [],
    nodes := [("n", nodeClientN), ("a", nodeHostA), ("b", nodeHostB)],
    peersTbl := [("n", [("a", 0), ("b", 0)])] }

/-- A memory store holding only node "n" (last seen at time 0, nil peers map). -/
def c5Store : MemoryStore :=
  { balances := [], nodes := [("n", nodeClientN)], nonces := [] }

/-- A memory store holding host nodes "a" and "b", both with nil peers maps,
as `SetNode` stores them. -/
def c10Store : MemoryStore :=
  { balances := [], nodes := [("a", nodeHostA), ("b", nodeHostB)], nonces := [] }

/-- A fresh pool: empty memory store, no remote hosts, whitelist enabled. -/
def emptyPool : PoolState :=
  { store := memoryStore.empty, remoteHosts := [], skipWhitelist := false }

/-! Helper lemmas. -/

/-- Reading back the key just written into an association-list map. -/
theorem mapGet?_mapSet_self {α : Type} (m : List (String × α)) (k : String) (v : α) :
    mapGet? (mapSet m k v) k = some v := by
  induction m with
  | nil => simp [mapSet, mapGet?]
  | cons hd tl ih =>
    obtain ⟨k₂, v₂⟩ := hd
    by_cases hk : k = k₂
    · simp [mapSet, mapGet?, hk]
    · simp [mapSet, mapGet?, hk, ih]

/-- The peer-refresh loop over a Go nil map faults as soon as the peer list
contains a node the store knows. -/
theorem refreshPeers_none_fault (known : String → Bool) (now : Int)
    (peers : List String) (n : Nat) (h : ∃ p ∈ peers, known p = true) :
    refreshPeers known now peers none n = .fault := by
  induction peers generalizing n with
  | nil => obtain ⟨p, hp, _⟩ := h; exact absurd hp (List.not_mem_nil p)
  | cons q rest ih =>
    obtain ⟨p, hp, hknown⟩ := h
    by_cases hq : known q
    · simp [refreshPeers, hq]
    · rcases List.mem_cons.mp hp with rfl | hmem
      · exact absurd hknown hq
      · simp only [refreshPeers, hq, Bool.false_eq_true, if_false]
        exact ih n ⟨p, hmem, hknown⟩

/-! Claim theorems. -/

/-- C1: For a client update with creditPerInterval=1000, interval=60s, exactly
60s elapsed and one valid peer, the embedded OnUpdate credits the peer 1 and
debits the client 1 — not 1000 as the claim states: balance.go:39 chains
`Mul(delta, cpi).Div(delta, interval)` on one receiver, so the division
overwrites the product and creditPerInterval never enters the credit. The
exchange is still zero-sum. -/
theorem C1_credit_formula_evaluated :
    payPerInterval.OnUpdate ledgerCfg [] ledgerClient [ledgerHost] 60 =
      (.ok (-1), [("host", 1), ("client", -1)]) ∧
    getNodeBalance (payPerInterval.OnUpdate ledgerCfg [] ledgerClient [ledgerHost] 60).2
      "host" = 1 := by
  constructor <;> rfl

/-- C2: the badger store does not enforce nonce monotonicity: with last
accepted nonce 5 for node "n", a call with the smaller nonce 3 succeeds and
records 3 (badger.go:63-89 only compares in the ErrKeyNotFound branch), while
the memory store rejects the same call with the invalid-nonce error. -/
theorem C2_badger_nonce_not_checked :
    badgerStore.CheckAndSaveNonce
        { nonces := [("n", 5)], nodes := [], peersTbl := [] } "n" 3 =
      .ok { nonces := [("n", 3)], nodes := [], peersTbl := [] } ∧
    memoryStore.CheckAndSaveNonce
        { balances := [], nodes := [], nonces := [("n", 5)] } "n" 3 =
      .error .invalidNonce := by
  constructor <;> rfl

/-- C3: with node "n" tracking stale peer "a" (last seen 0) and peer "b"
refreshed to now=1000 by the update, the embedded badger UpdateNodePeers
reports "b" — the freshly refreshed peer — as inactive and deletes it, while
the stale "a" is retained: badger.go:225 `continue`s (keeps) exactly the
entries whose timestamp fell behind the deadline, the opposite of the claim. -/
theorem C3_stale_peer_selection_inverted :
    badgerStore.UpdateNodePeers c3Store "n" ["b"] 1000 =
      .ok (["b"],
        { nonces := [],
          nodes := [("n", { nodeClientN with lastSeen := 1000 }),
                    ("a", nodeHostA), ("b", nodeHostB)],
          peersTbl := [("n", [("a", 0)])] }) := by
  rfl

/-- C5: a successful memory-store UpdateNodePeers at time 100 leaves the
store — in particular node "n"'s stored lastSeen, still 0 — completely
unchanged: memory.go:131 assigns `now` to a local copy of the Node that is
never written back. The badger implementation does persist it (second
conjunct). -/
theorem C5_memory_lastSeen_unchanged :
    memoryStore.UpdateNodePeers c5Store "n" [] 100 = .ok ([], c5Store) ∧
    (mapGet? c5Store.nodes "n").map Node.lastSeen = some 0 ∧
    (badgerStore.UpdateNodePeers
        { nonces := [], nodes := [("n", nodeClientN)], peersTbl := [] } "n" [] 100 =
      .ok ([], { nonces := [],
                 nodes := [("n", { nodeClientN with lastSeen := 100 })],
                 peersTbl := [("n", [])] })) := by
  refine ⟨rfl, rfl, rfl⟩

/-- C8 counterexample: an update with interval 0 and creditPerInterval 0 for a
host node succeeds (returning the current balance) instead of failing with a
configuration error — the balance.go:31 check runs only after the IsHost
early return. -/
theorem C8_counterexample :
    payPerInterval.OnUpdate { interval := 0, creditPerInterval := 0 }
      [] nodeHostA [] 5 = (.ok 0, []) := by
  rfl

/-- C8 (amended): for every client (non-host) update with interval ≤ 0 or
creditPerInterval = 0, OnUpdate fails with the configuration error and leaves
the balances unchanged. -/
theorem C8_client_misconfig_fails (b : payPerInterval) (st : NodeBalances)
    (node : Node) (peers : List Node) (now : Int)
    (hhost : node.isHost = false)
    (hcfg : b.interval ≤ 0 ∨ b.creditPerInterval = 0) :
    payPerInterval.OnUpdate b st node peers now =
      (.error "payPerInterval: Invalid interval settings", st) := by
  simp [payPerInterval.OnUpdate, hhost, hcfg]

/-- C8 witness: the amended theorem applied at a concrete input. -/
theorem C8_client_misconfig_fails_witness :
    payPerInterval.OnUpdate { interval := 0, creditPerInterval := 1000 }
      [("host", 3)] nodeClientN [nodeHostA] 60 =
      (.error "payPerInterval: Invalid interval settings", [("host", 3)]) :=
  C8_client_misconfig_fails { interval := 0, creditPerInterval := 1000 }
    [("host", 3)] nodeClientN [nodeHostA] 60 rfl (Or.inl (by decide))

/-- C9: memory-store AddBalance increments a local copy but writes it back
only when the account had no prior entry: with an existing entry the call
returns success and the store is unchanged; with no entry the credited copy
(starting from the zero Balance) is stored. -/
theorem C9_addBalance_writeback_only_when_absent (s : MemoryStore)
    (account : Account) (credit : Int) :
    (∀ b, mapGet? s.balances account = some b →
      memoryStore.AddBalance s account credit = .ok s) ∧
    (mapGet? s.balances account = none →
      memoryStore.AddBalance s account credit =
        .ok { s with balances :=
                mapSet s.balances account ({ Balance.zero with credit := credit }) }) := by
  constructor
  · intro b hb
    simp [memoryStore.AddBalance, hb]
  · intro hnone
    simp [memoryStore.AddBalance, hnone, Balance.zero]

/-- C9 witness: with an existing entry (credit 7) the store is unchanged and
the call succeeds; on a fresh store the credit 5 is persisted. -/
theorem C9_addBalance_witness :
    memoryStore.AddBalance
        { balances := [("acct", { account := "acct", credit := 7, nextWithdraw := 0 })],
          nodes := [], nonces := [] } "acct" 5 =
      .ok { balances := [("acct", { account := "acct", credit := 7, nextWithdraw := 0 })],
            nodes := [], nonces := [] } ∧
    memoryStore.AddBalance memoryStore.empty "acct" 5 =
      .ok { balances := [("acct", { account := "", credit := 5, nextWithdraw := 0 })],
            nodes := [], nonces := [] } :=
  ⟨(C9_addBalance_writeback_only_when_absent _ "acct" 5).1 _ rfl,
   (C9_addBalance_writeback_only_when_absent memoryStore.empty "acct" 5).2 rfl⟩

/-- C10 counterexample: nodes "a" and "b" stored as SetNode stores them (nil
peers map); UpdateNodePeers of "a" with the known peer "b" in the list
reaches the nil-map write `node.peers[...] = now` (memory.go:136) and faults
instead of completing. -/
theorem C10_counterexample :
    memoryStore.UpdateNodePeers c10Store "a" ["b"] 100 = .fault := by
  rfl

/-- C10 (amended): for every memory store whose stored node has the
uninitialized (nil) peers map — as every node stored via SetNode does — and
every peer list containing at least one node ID the store knows, the
peer-recording step of UpdateNodePeers faults (a Go nil-map write) rather
than completing. -/
theorem C10_nil_peers_fault (s : MemoryStore) (nodeID : NodeID) (node : Node)
    (peers : List String) (now : Int)
    (hnode : mapGet? s.nodes nodeID = some node)
    (hnil : node.peers = none)
    (hknown : ∃ p ∈ peers, (mapGet? s.nodes p).isSome = true) :
    memoryStore.UpdateNodePeers s nodeID peers now = .fault := by
  simp only [memoryStore.UpdateNodePeers, hnode, hnil]
  rw [refreshPeers_none_fault _ _ _ _ hknown]

/-- C10 witness: the amended theorem applied at the concrete store of the
counterexample. -/
theorem C10_nil_peers_fault_witness :
    memoryStore.UpdateNodePeers c10Store "a" ["b", "zzz"] 100 = .fault :=
  C10_nil_peers_fault c10Store "a" nodeHostA ["b", "zzz"] 100 rfl rfl
    ⟨"b", by decide, by decide⟩

/-- C6: in verify the nonce is compared and recorded before the signature is
checked: a call whose nonce passes (strictly greater than the stored value)
but whose signature fails returns the signature error with the nonce already
recorded, and a retried call with the same nonce fails with the invalid-nonce
cause whatever its signature outcome, leaving the store as it was. -/
theorem C6_nonce_consumed_before_signature (s : MemoryStore) (nodeID : NodeID)
    (nonce : Int) (sig₂ : Bool)
    (h : (mapGet? s.nonces nodeID).getD 0 < nonce) :
    (VipnodePool.verify s false nodeID nonce).1 = .error .badSignature ∧
    mapGet? (VipnodePool.verify s false nodeID nonce).2.nonces nodeID = some nonce ∧
    VipnodePool.verify (VipnodePool.verify s false nodeID nonce).2 sig₂ nodeID nonce =
      (.error .invalidNonce, (VipnodePool.verify s false nodeID nonce).2) := by
  have h1 : memoryStore.CheckAndSaveNonce s nodeID nonce =
      .ok { s with nonces := mapSet s.nonces nodeID nonce } := by
    simp [memoryStore.CheckAndSaveNonce, not_le.mpr h]
  have h2 : VipnodePool.verify s false nodeID nonce =
      (.error .badSignature, { s with nonces := mapSet s.nonces nodeID nonce }) := by
    simp [VipnodePool.verify, h1]
  have h3 : memoryStore.CheckAndSaveNonce
      { s with nonces := mapSet s.nonces nodeID nonce } nodeID nonce =
      .error .invalidNonce := by
    simp [memoryStore.CheckAndSaveNonce, mapGet?_mapSet_self]
  refine ⟨by rw [h2], by rw [h2]; exact mapGet?_mapSet_self s.nonces nodeID nonce, ?_⟩
  rw [h2]
  simp [VipnodePool.verify, h3]

/-- C6 witness: on an empty store, a first call with nonce 5 and a bad
signature consumes the nonce; the retry with nonce 5 and a valid signature is
rejected with the invalid-nonce cause. -/
theorem C6_nonce_consumed_witness :
    (VipnodePool.verify memoryStore.empty false "n" 5).1 = .error .badSignature ∧
    mapGet? (VipnodePool.verify memoryStore.empty false "n" 5).2.nonces "n" = some 5 ∧
    VipnodePool.verify (VipnodePool.verify memoryStore.empty false "n" 5).2 true "n" 5 =
      (.error .invalidNonce, (VipnodePool.verify memoryStore.empty false "n" 5).2) :=
  C6_nonce_consumed_before_signature memoryStore.empty "n" 5 true (by decide)

/-- C7: a verified Host call with a URI whose user component differs from
nodeID fails with the identity-mismatch error and leaves the pool state
unchanged; with a matching identity (and a nonempty nodeID and payout) it
upserts the node with isHost set, lastSeen := now and the payout account's
balance bound, and records the call's service under nodeID in remoteHosts. -/
theorem C7_host_identity_and_upsert (p : PoolState) (nodeID : NodeID)
    (kind payout nodeURI : String) (svc : Nat) (now : Int) :
    (uriUser nodeURI ≠ nodeID →
      VipnodePool.Host p nodeID kind payout nodeURI (some svc) now =
        (.error .identityMismatch, p)) ∧
    (uriUser nodeURI = nodeID → nodeID ≠ "" → payout ≠ "" →
      VipnodePool.Host p nodeID kind payout nodeURI (some svc) now =
        (.ok (),
         { store := { p.store with nodes := (mapSet p.store.nodes nodeID
             { id := nodeID, uri := nodeURI, lastSeen := now, kind := kind,
               isHost := true,
               balance := some (memoryStore.GetBalance p.store payout),
               peers := none }) },
           remoteHosts := mapSet p.remoteHosts nodeID svc,
           skipWhitelist := p.skipWhitelist })) := by
  constructor
  · intro hne
    simp [VipnodePool.Host, hne]
  · intro heq hid hpay
    simp [VipnodePool.Host, heq, memoryStore.SetNode, hid, hpay, memoryStore.GetBalance]

/-- C7 witness: on a fresh pool, a mismatched URI is rejected without state
change, and a matching URI stores the host node and its remote service. -/
theorem C7_host_witness :
    uriUser "enode://xyz@127.0.0.1:30303" ≠ "abc" ∧
    VipnodePool.Host emptyPool "abc" "geth" "acct" "enode://xyz@127.0.0.1:30303"
      (some 7) 42 = (.error .identityMismatch, emptyPool) ∧
    VipnodePool.Host emptyPool "abc" "geth" "acct" "enode://abc@127.0.0.1:30303"
      (some 7) 42 =
      (.ok (),
       { store := { balances := [],
                    nodes := [("abc",
                      { id := "abc", uri := "enode://abc@127.0.0.1:30303",
                        lastSeen := 42, kind := "geth", isHost := true,
                        balance := some Balance.zero, peers := none })],
                    nonces := [] },
         remoteHosts := [("abc", 7)], skipWhitelist := false }) :=
  ⟨by decide,
   (C7_host_identity_and_upsert emptyPool "abc" "geth" "acct"
     "enode://xyz@127.0.0.1:30303" 7 42).1 (by decide),
   (C7_host_identity_and_upsert emptyPool "abc" "geth" "acct"
     "enode://abc@127.0.0.1:30303" 7 42).2 (by decide) (by decide) (by decide)⟩

/-- C4: classification of a verified Connect call (whitelist enabled,
well-formed nodeID): no active host of the kind fails with NoHostsError and
triedCount 0; at least one accepted whitelist call returns exactly the
accepted hosts with no error; zero accepted with at least one error
(whitelist failures and candidates without a live remoteHosts entry) fails
with ConnectFailedError carrying those errors; zero accepted and zero errors
fails with NoHostsError carrying the candidate count. -/
theorem C4_connect_classification (p : PoolState) (nodeID : NodeID) (kind : String)
    (whitelistOK : Nat → Bool) (now : Int)
    (hskip : p.skipWhitelist = false) (hid : nodeID ≠ "") :
    (memoryStore.ActiveHosts p.store kind 3 now = [] →
      (VipnodePool.Connect p nodeID kind whitelistOK now).1 =
        .error (.noHostNodes 0)) ∧
    (memoryStore.ActiveHosts p.store kind 3 now ≠ [] →
      connectAccepted (connectRemotes p (memoryStore.ActiveHosts p.store kind 3 now))
          whitelistOK ≠ [] →
      (VipnodePool.Connect p nodeID kind whitelistOK now).1 =
        .ok (connectAccepted
          (connectRemotes p (memoryStore.ActiveHosts p.store kind 3 now)) whitelistOK)) ∧
    (memoryStore.ActiveHosts p.store kind 3 now ≠ [] →
      connectAccepted (connectRemotes p (memoryStore.ActiveHosts p.store kind 3 now))
          whitelistOK = [] →
      connectErrors p (memoryStore.ActiveHosts p.store kind 3 now) whitelistOK ≠ [] →
      (VipnodePool.Connect p nodeID kind whitelistOK now).1 =
        .error (.connectFailed
          (connectErrors p (memoryStore.ActiveHosts p.store kind 3 now) whitelistOK))) ∧
    (memoryStore.ActiveHosts p.store kind 3 now ≠ [] →
      connectAccepted (connectRemotes p (memoryStore.ActiveHosts p.store kind 3 now))
          whitelistOK = [] →
      connectErrors p (memoryStore.ActiveHosts p.store kind 3 now) whitelistOK = [] →
      (VipnodePool.Connect p nodeID kind whitelistOK now).1 =
        .error (.noHostNodes (memoryStore.ActiveHosts p.store kind 3 now).length)) := by
  have hset : memoryStore.SetNode p.store
      { id := nodeID, uri := "", lastSeen := now, kind := kind,
        isHost := false, balance := none, peers := none } "" =
      .ok { p.store with nodes := (mapSet p.store.nodes nodeID
        { id := nodeID, uri := "", lastSeen := now, kind := kind,
          isHost := false, balance := none, peers := none }) } := by
    simp [memoryStore.SetNode, hid]
  refine ⟨?_, ?_, ?_, ?_⟩
  · intro hr
    simp [VipnodePool.Connect, hr]
  · intro hr hacc
    have hlen : ¬ (memoryStore.ActiveHosts p.store kind 3 now).length = 0 := by
      simpa [List.length_eq_zero] using hr
    have haccLen : (connectAccepted
        (connectRemotes p (memoryStore.ActiveHosts p.store kind 3 now))
        whitelistOK).length ≥ 1 :=
      Nat.one_le_iff_ne_zero.mpr (by simpa [List.length_eq_zero] using hacc)
    simp [VipnodePool.Connect, hlen, hskip, hset, haccLen]
  · intro hr hacc herr
    have hlen : ¬ (memoryStore.ActiveHosts p.store kind 3 now).length = 0 := by
      simpa [List.length_eq_zero] using hr
    have herrLen : (connectErrors p (memoryStore.ActiveHosts p.store kind 3 now)
        whitelistOK).length > 0 :=
      List.length_pos.mpr herr
    simp [VipnodePool.Connect, hlen, hskip, hset, hacc, herrLen]
  · intro hr hacc herr
    have hlen : ¬ (memoryStore.ActiveHosts p.store kind 3 now).length = 0 := by
      simpa [List.length_eq_zero] using hr
    simp [VipnodePool.Connect, hlen, hskip, hset, hacc, herr]

/-- C4 witness: a fresh pool has no active geth hosts, and the Connect call
fails with NoHostsError and triedCount 0. -/
theorem C4_connect_witness :
    memoryStore.ActiveHosts emptyPool.store "geth" 3 0 = [] ∧
    (VipnodePool.Connect emptyPool "c" "geth" (fun _ => true) 0).1 =
      .error (.noHostNodes 0) :=
  ⟨rfl,
   (C4_connect_classification emptyPool "c" "geth" (fun _ => true) 0 rfl
     (by decide)).1 rfl⟩

end Vipnode
